import Mathlib

/-!
Shallow embedding of the depreciation schedule engine from
`src/components/DepreciationCalculator.jsx`.

The computational core is the `scheduleData` memo: it allocates the total
cost across six asset categories, applies Section 179 and bonus
depreciation to the eligible categories, and then produces a 40-row
year-by-year depreciation schedule.  JavaScript numbers are modelled as
exact rationals (ℚ); object fields that may be absent and are read back
with `|| 0` (`section179`, `bonusDepreciation`) are modelled as fields
defaulting to `0`.
-/

namespace Depreciation

/-- The six asset category ids of `ASSET_CATEGORIES` (JS ids `land`,
`5year`, `7year`, `15year`, `residential`, `commercial`). -/
inductive CatId where
  | land
  | year5
  | year7
  | year15
  | residential
  | commercial
deriving DecidableEq, Repr

/-- The `ASSET_CATEGORIES` array, in source order. -/
def ASSET_CATEGORIES : List CatId :=
  [.land, .year5, .year7, .year15, .residential, .commercial]

/-- The `life` field of each entry of `ASSET_CATEGORIES`. -/
def life : CatId → ℚ
  | .land => 0
  | .year5 => 5
  | .year7 => 7
  | .year15 => 15
  | .residential => 27.5
  | .commercial => 39

/-- The `MACRS_RATES` table: recovery life to the ordered list of
per-year rates; `none` models a key absent from the JS object. -/
def MACRS_RATES (l : ℚ) : Option (List ℚ) :=
  if l = 5 then some [0.2, 0.32, 0.192, 0.1152, 0.1152, 0.0576]
  else if l = 7 then
    some [0.1429, 0.2449, 0.1749, 0.1249, 0.0893, 0.0892, 0.0893, 0.0446]
  else if l = 15 then
    some [0.05, 0.095, 0.0855, 0.077, 0.0693, 0.0623, 0.059, 0.059, 0.0591,
          0.059, 0.0591, 0.059, 0.0591, 0.059, 0.0591, 0.0295]
  else if l = 27.5 then
    some ((List.range 28).map fun i =>
      if i = 0 then 0.03636 else if i = 27 then 0.01515 else 0.03636)
  else if l = 39 then
    some ((List.range 40).map fun i =>
      if i = 0 then 0.02461 else if i = 39 then 0.00107 else 0.02564)
  else none

/-- The `BONUS_RATES` table keyed by placed-in-service year. -/
def BONUS_RATES (year : ℤ) : Option ℚ :=
  if year = 2022 then some 1.00
  else if year = 2023 then some 0.80
  else if year = 2024 then some 0.60
  else if year = 2025 then some 0.40
  else if year = 2026 then some 0.20
  else if year = 2027 then some 0.00
  else none

/-- Derived rate: `const bonusRate = BONUS_RATES[purchaseYear] || 0` (the only falsy
table value is `0.00`, so `|| 0` coincides with defaulting to `0`). -/
def bonusRate (year : ℤ) : ℚ := (BONUS_RATES year).getD 0

/-- The inputs consumed by the `scheduleData` computation (the component
state it closes over). -/
structure Inputs where
  totalCost : ℚ
  allocations : CatId → ℚ
  purchaseYear : ℤ
  useBonus : Bool
  useSection179 : Bool
  section179Amount : ℚ
  depreciationMethod : String

/-- One entry of `categorySchedules`: the mutable per-category record.
`section179` and `bonusDepreciation` start absent in JS and are read via
`|| 0`, hence default `0` here. -/
structure CatSched where
  basis : ℚ
  section179 : ℚ := 0
  bonusDepreciation : ℚ := 0
deriving DecidableEq, Repr

/-- Allocated basis: `(allocations[cat.id] / 100) * totalCost`. -/
def initialBasis (I : Inputs) (c : CatId) : ℚ :=
  I.allocations c / 100 * I.totalCost

/-- Initial `categorySchedules`. -/
def initSchedules (I : Inputs) : CatId → CatSched :=
  fun c => { basis := initialBasis I c }

/-- The `eligible179` list. -/
def eligible179 : List CatId := [.year5, .year7, .year15]

/-- The Section 179 `forEach` loop: threads `remaining179` and the
category-schedule map through the eligible categories. -/
def apply179 : List CatId → ℚ → (CatId → CatSched) → ℚ × (CatId → CatSched)
  | [], remaining, s => (remaining, s)
  | catId :: rest, remaining, s =>
    if remaining > 0 then
      apply179 rest (remaining - min remaining ((s catId).basis))
        (fun x => if x = catId then
            { s catId with
              section179 := min remaining ((s catId).basis),
              basis := (s catId).basis - min remaining ((s catId).basis) }
          else s x)
    else
      apply179 rest remaining s

/-- Initialisation `let remaining179 = useSection179 ? section179Amount : 0` followed by
the Section 179 loop; returns the final `remaining179` and the state. -/
def step179 (I : Inputs) : ℚ × (CatId → CatSched) :=
  apply179 eligible179 (if I.useSection179 then I.section179Amount else 0) (initSchedules I)

/-- The `eligibleBonus` list. -/
def eligibleBonus : List CatId := [.year5, .year7, .year15]

/-- The bonus-depreciation `forEach` loop. -/
def applyBonus (useBonus : Bool) (rate : ℚ) (s : CatId → CatSched) : CatId → CatSched :=
  eligibleBonus.foldl
    (fun st catId =>
      if useBonus = true ∧ rate > 0 then
        fun x => if x = catId then
            { st catId with
              bonusDepreciation := (st catId).basis * rate,
              basis := (st catId).basis - (st catId).basis * rate }
          else st x
      else st)
    s

/-- State of `categorySchedules` after both basis-reducing steps. -/
def afterBonus (I : Inputs) : CatId → CatSched :=
  applyBonus I.useBonus (bonusRate I.purchaseYear) (step179 I).2

/-- The body of the yearly loop for one category: the value stored into
`yearData.depreciation[cat.id]` (land returns `0` before the first-year
add; other categories take the method branch and, in year 0, add the
Section 179 and bonus amounts). -/
def yearDepreciation (I : Inputs) (s : CatId → CatSched) (cat : CatId) (year : ℕ) : ℚ :=
  if life cat = 0 then 0
  else
    let base :=
      if I.depreciationMethod = "macrs" then
        match MACRS_RATES (life cat) with
        | some rates => if year < rates.length then (s cat).basis * rates.getD year 0 else 0
        | none => 0
      else
        if (year : ℚ) < life cat then (s cat).basis / life cat else 0
    base + (if year = 0 then (s cat).section179 + (s cat).bonusDepreciation else 0)

/-- One `yearData` row of the schedule. -/
structure YearData where
  year : ℤ
  depreciation : CatId → ℚ
  totalDepreciation : ℚ

instance : Inhabited YearData :=
  ⟨{ year := 0, depreciation := fun _ => 0, totalDepreciation := 0 }⟩

/-- Builds one schedule row.  `totalDepreciation` mirrors the JS
accumulation: the land branch `return`s before the `+=`, so land is
skipped (its stored amount is `0` anyway). -/
def yearRow (I : Inputs) (s : CatId → CatSched) (year : ℕ) : YearData :=
  { year := I.purchaseYear + year,
    depreciation := fun c => yearDepreciation I s c year,
    totalDepreciation :=
      ASSET_CATEGORIES.foldl
        (fun acc c => if life c = 0 then acc else acc + yearDepreciation I s c year) 0 }

/-- The `scheduleData` result: the 40 schedule rows together with the
final `categorySchedules` state (basis reduction happens before the
yearly loop and the loop does not change any basis). -/
def scheduleData (I : Inputs) : List YearData × (CatId → CatSched) :=
  ((List.range 40).map (yearRow I (afterBonus I)), afterBonus I)

/-- A category's `cumulative` field after the loop: the sum of its 40
yearly depreciation amounts (land accumulates nothing, and its stored
yearly amounts are all `0`). -/
def cumulative (I : Inputs) (c : CatId) : ℚ :=
  ((List.range 40).map (yearDepreciation I (afterBonus I) c)).sum

/-- The periodic (table- or straight-line-driven) part of a year's
depreciation, before the first-year Section 179 / bonus add-on.  Stated
separately so the first-year decomposition can be expressed. -/
def periodicDep (I : Inputs) (s : CatId → CatSched) (cat : CatId) (year : ℕ) : ℚ :=
  if life cat = 0 then 0
  else if I.depreciationMethod = "macrs" then
    match MACRS_RATES (life cat) with
    | some rates => if year < rates.length then (s cat).basis * rates.getD year 0 else 0
    | none => 0
  else if (year : ℚ) < life cat then (s cat).basis / life cat else 0

/-- Modelled from the spec: the straight-line yearly amount — `basis /
life` for year indices below the life, `0` afterwards, with the
Section 179 and bonus amounts added in year 0 only, and land (life 0)
never depreciated. -/
def straightLineDep (s : CatId → CatSched) (cat : CatId) (year : ℕ) : ℚ :=
  if life cat = 0 then 0
  else
    (if (year : ℚ) < life cat then (s cat).basis / life cat else 0) +
      (if year = 0 then (s cat).section179 + (s cat).bonusDepreciation else 0)

/-- The worked scenario from the spec: $1,000,000 with allocations
land 15 / 5-year 8 / 7-year 5 / 15-year 12 / commercial 60, MACRS,
bonus elected, placed in service 2024. -/
def specInput : Inputs :=
  { totalCost := 1000000,
    allocations := fun c => match c with
      | .land => 15
      | .year5 => 8
      | .year7 => 5
      | .year15 => 12
      | .residential => 0
      | .commercial => 60,
    purchaseYear := 2024,
    useBonus := true,
    useSection179 := false,
    section179Amount := 0,
    depreciationMethod := "macrs" }

/-- An input with a negative total cost (reachable: the cost field is
parsed with `parseFloat`, which accepts negative numbers). -/
def negCost : Inputs :=
  { totalCost := -100,
    allocations := fun c => if c = .commercial then 60 else 0,
    purchaseYear := 2024,
    useBonus := false,
    useSection179 := false,
    section179Amount := 0,
    depreciationMethod := "macrs" }

/-! Helper lemmas about the Section 179 loop. -/

lemma apply179_nonpos :
    ∀ (cs : List CatId) (rem : ℚ) (s : CatId → CatSched),
      rem ≤ 0 → apply179 cs rem s = (rem, s) := by
  intro cs
  induction cs with
  | nil => intro rem s _; rfl
  | cons d ds ih =>
    intro rem s h
    simp only [apply179, if_neg (not_lt.mpr h)]
    exact ih rem s h

lemma apply179_not_mem :
    ∀ (cs : List CatId) (rem : ℚ) (s : CatId → CatSched) (c : CatId),
      c ∉ cs → ((apply179 cs rem s).2) c = s c := by
  intro cs
  induction cs with
  | nil => intro rem s c _; rfl
  | cons d ds ih =>
    intro rem s c hc
    simp only [List.mem_cons, not_or] at hc
    obtain ⟨hcd, hcds⟩ := hc
    by_cases h : rem > 0
    · simp only [apply179, if_pos h]
      rw [ih _ _ _ hcds]
      simp [hcd]
    · simp only [apply179, if_neg h]
      exact ih _ _ _ hcds

lemma apply179_cons (c : CatId) (cs : List CatId) (rem : ℚ) (s : CatId → CatSched)
    (h0 : 0 ≤ rem) (hb : 0 ≤ (s c).basis) (hs : (s c).section179 = 0) :
    apply179 (c :: cs) rem s =
      apply179 cs (rem - min rem ((s c).basis))
        (fun x => if x = c then
            { s c with
              section179 := min rem ((s c).basis),
              basis := (s c).basis - min rem ((s c).basis) }
          else s x) := by
  by_cases h : rem > 0
  · simp only [apply179, if_pos h]
  · have hr : rem = 0 := le_antisymm (not_lt.mp h) h0
    subst hr
    have hmin : min (0 : ℚ) ((s c).basis) = 0 := min_eq_left hb
    simp only [apply179, if_neg h, hmin, sub_zero]
    congr 1
    funext x
    by_cases hx : x = c
    · subst hx
      rw [← hs]
      simp
    · simp [hx]

lemma apply179_conserve :
    ∀ (cs : List CatId), cs.Nodup →
      ∀ (rem : ℚ) (s : CatId → CatSched) (c : CatId), (s c).section179 = 0 →
        ((apply179 cs rem s).2 c).basis + ((apply179 cs rem s).2 c).section179
            = (s c).basis ∧
          ((apply179 cs rem s).2 c).bonusDepreciation = (s c).bonusDepreciation := by
  intro cs
  induction cs with
  | nil =>
    intro _ rem s c hs
    exact ⟨by simp [apply179, hs], rfl⟩
  | cons d ds ih =>
    intro hnd rem s c hs
    obtain ⟨hd, hnds⟩ := List.nodup_cons.mp hnd
    by_cases h : rem > 0
    · simp only [apply179, if_pos h]
      by_cases hcd : c = d
      · subst hcd
        rw [apply179_not_mem ds _ _ c hd]
        simp
      · have key := ih hnds (rem - min rem ((s d).basis))
          (fun x => if x = d then
              { s d with
                section179 := min rem ((s d).basis),
                basis := (s d).basis - min rem ((s d).basis) }
            else s x) c (by simp [hcd, hs])
        simpa [hcd] using key
    · simp only [apply179, if_neg h]
      exact ih hnds rem s c hs

lemma apply179_zero :
    ∀ (cs : List CatId) (rem : ℚ) (s : CatId → CatSched),
      (∀ c, s c = ({ basis := 0 } : CatSched)) →
      ∀ c, ((apply179 cs rem s).2) c = ({ basis := 0 } : CatSched) := by
  intro cs
  induction cs with
  | nil => intro rem s h c; exact h c
  | cons d ds ih =>
    intro rem s h c
    by_cases hr : rem > 0
    · simp only [apply179, if_pos hr]
      refine ih _ _ ?_ c
      intro x
      by_cases hx : x = d
      · subst hx; simp [h x, min_eq_right (le_of_lt hr)]
      · simp [hx, h x]
    · simp only [apply179, if_neg hr]
      exact ih _ _ h c

/-! Helper lemmas about the bonus loop. -/

lemma applyBonus_spec (u : Bool) (r : ℚ) (s : CatId → CatSched) (c : CatId) :
    applyBonus u r s c =
      if (u = true ∧ 0 < r) ∧ (c = .year5 ∨ c = .year7 ∨ c = .year15) then
        { s c with
          bonusDepreciation := (s c).basis * r,
          basis := (s c).basis - (s c).basis * r }
      else s c := by
  by_cases h : u = true ∧ 0 < r
  · cases c <;> simp [applyBonus, eligibleBonus, h]
  · cases c <;> simp [applyBonus, eligibleBonus, h]

lemma step179_bonus_zero (I : Inputs) (c : CatId) :
    ((step179 I).2 c).bonusDepreciation = 0 := by
  have key := apply179_conserve eligible179 (by decide)
    (if I.useSection179 then I.section179Amount else 0) (initSchedules I) c rfl
  simpa [step179, initSchedules] using key.2

lemma step179_conserve (I : Inputs) (c : CatId) :
    ((step179 I).2 c).basis + ((step179 I).2 c).section179 = initialBasis I c := by
  have key := apply179_conserve eligible179 (by decide)
    (if I.useSection179 then I.section179Amount else 0) (initSchedules I) c rfl
  simpa [step179, initSchedules] using key.1

lemma afterBonus_conserve (I : Inputs) (c : CatId) :
    ((afterBonus I) c).section179 = ((step179 I).2 c).section179 ∧
      ((afterBonus I) c).basis + ((afterBonus I) c).bonusDepreciation
        = ((step179 I).2 c).basis := by
  unfold afterBonus
  rw [applyBonus_spec]
  split
  · constructor
    · rfl
    · simp
  · exact ⟨rfl, by simp [step179_bonus_zero I c]⟩

lemma afterBonus_not_eligible (I : Inputs) (c : CatId)
    (h : ¬(c = .year5 ∨ c = .year7 ∨ c = .year15)) :
    afterBonus I c = initSchedules I c := by
  unfold afterBonus
  rw [applyBonus_spec, if_neg (by tauto)]
  exact apply179_not_mem eligible179 _ _ c (by simpa [eligible179] using h)

/-! Helper lemmas about the yearly loop. -/

lemma scheduleData_getD (I : Inputs) (i : ℕ) (hi : i < 40) :
    (scheduleData I).1.getD i default = yearRow I (afterBonus I) i := by
  unfold scheduleData
  simp [List.getD_eq_getElem?_getD, List.getElem?_range, hi]

lemma yearDepreciation_zero (I : Inputs) (s : CatId → CatSched) (c : CatId) (y : ℕ)
    (h : s c = ({ basis := 0 } : CatSched)) :
    yearDepreciation I s c y = 0 := by
  unfold yearDepreciation
  split
  · rfl
  · cases hM : MACRS_RATES (life c) <;> simp [h, hM]

/-- C7: over the six categories, the initially allocated bases sum to
`totalCost * (sum of all allocation percentages) / 100`, for every input
— no clamping or rejection when the percentages do not sum to 100. -/
theorem allocation_conservation (I : Inputs) :
    (ASSET_CATEGORIES.map fun c => (initSchedules I c).basis).sum =
      I.totalCost * (ASSET_CATEGORIES.map I.allocations).sum / 100 := by
  simp only [ASSET_CATEGORIES, List.map_cons, List.map_nil, List.sum_cons,
    List.sum_nil, initSchedules, initialBasis]
  ring

/-- C8: basis conservation — for each Section-179/bonus-eligible
category, recorded Section 179 amount + recorded bonus amount +
remaining basis equals the initially allocated basis
(`allocation% × totalCost`), for every input in exact arithmetic; the
land, residential and commercial records are never changed by either
step. -/
theorem basis_conservation (I : Inputs) :
    (((scheduleData I).2 .year5).section179 + ((scheduleData I).2 .year5).bonusDepreciation
        + ((scheduleData I).2 .year5).basis = initialBasis I .year5) ∧
    (((scheduleData I).2 .year7).section179 + ((scheduleData I).2 .year7).bonusDepreciation
        + ((scheduleData I).2 .year7).basis = initialBasis I .year7) ∧
    (((scheduleData I).2 .year15).section179 + ((scheduleData I).2 .year15).bonusDepreciation
        + ((scheduleData I).2 .year15).basis = initialBasis I .year15) ∧
    (scheduleData I).2 .land = initSchedules I .land ∧
    (scheduleData I).2 .residential = initSchedules I .residential ∧
    (scheduleData I).2 .commercial = initSchedules I .commercial := by
  have elig : ∀ c : CatId,
      ((afterBonus I) c).section179 + ((afterBonus I) c).bonusDepreciation
        + ((afterBonus I) c).basis = initialBasis I c := by
    intro c
    obtain ⟨h1, h2⟩ := afterBonus_conserve I c
    have h3 := step179_conserve I c
    rw [h1]
    linarith
  refine ⟨elig .year5, elig .year7, elig .year15, ?_, ?_, ?_⟩
  · exact afterBonus_not_eligible I .land (by simp)
  · exact afterBonus_not_eligible I .residential (by simp)
  · exact afterBonus_not_eligible I .commercial (by simp)

/-- C2: bonus depreciation is applied exactly when it is elected and the
year's bonus rate is positive; then each eligible category's bonus
equals its own post-Section-179 basis times the year's rate
(independently, no shared pool), and is subtracted from that category's
basis. -/
theorem bonus_per_category_independent (I : Inputs) :
    (((afterBonus I) .year5).bonusDepreciation =
      (if I.useBonus = true ∧ 0 < bonusRate I.purchaseYear
        then ((step179 I).2 .year5).basis * bonusRate I.purchaseYear else 0)) ∧
    (((afterBonus I) .year7).bonusDepreciation =
      (if I.useBonus = true ∧ 0 < bonusRate I.purchaseYear
        then ((step179 I).2 .year7).basis * bonusRate I.purchaseYear else 0)) ∧
    (((afterBonus I) .year15).bonusDepreciation =
      (if I.useBonus = true ∧ 0 < bonusRate I.purchaseYear
        then ((step179 I).2 .year15).basis * bonusRate I.purchaseYear else 0)) ∧
    ((afterBonus I) .year5).basis
        = ((step179 I).2 .year5).basis - ((afterBonus I) .year5).bonusDepreciation ∧
    ((afterBonus I) .year7).basis
        = ((step179 I).2 .year7).basis - ((afterBonus I) .year7).bonusDepreciation ∧
    ((afterBonus I) .year15).basis
        = ((step179 I).2 .year15).basis - ((afterBonus I) .year15).bonusDepreciation := by
  have key : ∀ c : CatId, (c = .year5 ∨ c = .year7 ∨ c = .year15) →
      ((afterBonus I) c).bonusDepreciation =
        (if I.useBonus = true ∧ 0 < bonusRate I.purchaseYear
          then ((step179 I).2 c).basis * bonusRate I.purchaseYear else 0) ∧
      ((afterBonus I) c).basis
        = ((step179 I).2 c).basis - ((afterBonus I) c).bonusDepreciation := by
    intro c hc
    unfold afterBonus
    rw [applyBonus_spec]
    by_cases h : I.useBonus = true ∧ 0 < bonusRate I.purchaseYear
    · rw [if_pos ⟨h, hc⟩, if_pos h]
      exact ⟨rfl, rfl⟩
    · rw [if_neg (by tauto), if_neg h]
      exact ⟨step179_bonus_zero I c, by simp [step179_bonus_zero I c]⟩
  obtain ⟨a1, a2⟩ := key .year5 (by simp)
  obtain ⟨b1, b2⟩ := key .year7 (by simp)
  obtain ⟨c1, c2⟩ := key .year15 (by simp)
  exact ⟨a1, b1, c1, a2, b2, c2⟩

/-- C9: if Section 179 is not elected, or the requested amount is zero
or negative, the Section 179 step changes nothing: every category keeps
its allocated basis and records no (in particular no negative)
deduction. -/
theorem section179_noop_when_not_elected (I : Inputs)
    (h : I.useSection179 = false ∨ I.section179Amount ≤ 0) :
    ∀ c, (step179 I).2 c = initSchedules I c := by
  intro c
  have hrem : (if I.useSection179 then I.section179Amount else 0) ≤ 0 := by
    rcases h with h | h
    · simp [h]
    · split <;> simp [h]
  unfold step179
  rw [apply179_nonpos eligible179 _ (initSchedules I) hrem]

/-- Witness for C9 at a concrete input: Section 179 elected with a
negative requested amount leaves the 5-year record untouched. -/
theorem section179_noop_witness :
    (({ specInput with useSection179 := true, section179Amount := -5 } : Inputs).useSection179
        = false ∨
      ({ specInput with useSection179 := true, section179Amount := -5 } : Inputs).section179Amount
        ≤ 0) ∧
    (step179 { specInput with useSection179 := true, section179Amount := -5 }).2 .year5
      = initSchedules { specInput with useSection179 := true, section179Amount := -5 } .year5 :=
  ⟨Or.inr (by norm_num),
    section179_noop_when_not_elected _ (Or.inr (by norm_num)) .year5⟩

/-- C1: with Section 179 elected (and inputs in the documented domain:
non-negative cost, allocations and requested amount), the eligible
categories 5-year, 7-year, 15-year are served in that fixed order from a
running remaining amount initialised to `section179Amount`: each
deduction is `min(remaining, current basis)`, is recorded, and is
subtracted from both the basis and the remaining (so a category reached
with remaining 0 records 0); the total deducted is at most
`min(requested, sum of eligible bases)`. -/
theorem section179_fcfs (I : Inputs) (hT : 0 ≤ I.totalCost) (hA : ∀ c, 0 ≤ I.allocations c)
    (hS : 0 ≤ I.section179Amount) (hE : I.useSection179 = true) :
    ∃ d5 d7 d15 : ℚ,
      d5 = min I.section179Amount (initialBasis I .year5) ∧
      d7 = min (I.section179Amount - d5) (initialBasis I .year7) ∧
      d15 = min (I.section179Amount - d5 - d7) (initialBasis I .year15) ∧
      ((step179 I).2 .year5).section179 = d5 ∧
      ((step179 I).2 .year7).section179 = d7 ∧
      ((step179 I).2 .year15).section179 = d15 ∧
      ((step179 I).2 .year5).basis = initialBasis I .year5 - d5 ∧
      ((step179 I).2 .year7).basis = initialBasis I .year7 - d7 ∧
      ((step179 I).2 .year15).basis = initialBasis I .year15 - d15 ∧
      (step179 I).1 = I.section179Amount - d5 - d7 - d15 ∧
      d5 + d7 + d15 ≤
        min I.section179Amount
          (initialBasis I .year5 + initialBasis I .year7 + initialBasis I .year15) := by
  have hb : ∀ c, 0 ≤ (initSchedules I c).basis := fun c =>
    mul_nonneg (div_nonneg (hA c) (by norm_num)) hT
  have e0 : step179 I = apply179 eligible179 I.section179Amount (initSchedules I) := by
    unfold step179
    rw [if_pos hE]
  rw [eligible179] at e0
  rw [apply179_cons CatId.year5 [CatId.year7, CatId.year15]
    I.section179Amount (initSchedules I) hS (hb _) rfl] at e0
  rw [apply179_cons CatId.year7 [CatId.year15] _ _
    (sub_nonneg.mpr (min_le_left _ _)) (by simp; exact hb CatId.year7)
    (by simp [initSchedules])] at e0
  rw [apply179_cons CatId.year15 [] _ _
    (sub_nonneg.mpr (min_le_left _ _)) (by simp; exact hb CatId.year15)
    (by simp [initSchedules])] at e0
  simp only [apply179] at e0
  refine ⟨min I.section179Amount (initialBasis I .year5),
    min (I.section179Amount - min I.section179Amount (initialBasis I .year5))
      (initialBasis I .year7),
    min (I.section179Amount - min I.section179Amount (initialBasis I .year5)
        - min (I.section179Amount - min I.section179Amount (initialBasis I .year5))
            (initialBasis I .year7))
      (initialBasis I .year15),
    rfl, rfl, rfl, ?_, ?_, ?_, ?_, ?_, ?_, ?_, ?_⟩
  · rw [e0]; simp [initSchedules, initialBasis]
  · rw [e0]; simp [initSchedules, initialBasis]
  · rw [e0]; simp [initSchedules, initialBasis]
  · rw [e0]; simp [initSchedules, initialBasis]
  · rw [e0]; simp [initSchedules, initialBasis]
  · rw [e0]; simp [initSchedules, initialBasis]
  · rw [e0]; simp [initSchedules, initialBasis]
  · apply le_min
    · have k5 := min_le_left I.section179Amount (initialBasis I .year5)
      have k7 := min_le_left (I.section179Amount - min I.section179Amount (initialBasis I .year5))
        (initialBasis I .year7)
      have k15 := min_le_left (I.section179Amount - min I.section179Amount (initialBasis I .year5)
          - min (I.section179Amount - min I.section179Amount (initialBasis I .year5))
              (initialBasis I .year7))
        (initialBasis I .year15)
      linarith
    · have k5 := min_le_right I.section179Amount (initialBasis I .year5)
      have k7 := min_le_right (I.section179Amount - min I.section179Amount (initialBasis I .year5))
        (initialBasis I .year7)
      have k15 := min_le_right (I.section179Amount - min I.section179Amount (initialBasis I .year5)
          - min (I.section179Amount - min I.section179Amount (initialBasis I .year5))
              (initialBasis I .year7))
        (initialBasis I .year15)
      linarith

/-- Witness for C1 at the spec's worked scenario: a $100,000 election is
absorbed as 80,000 by the 5-year category, 20,000 by the 7-year
category, and 0 by the 15-year category. -/
theorem section179_fcfs_witness :
    ((0 : ℚ) ≤ ({ specInput with useSection179 := true, section179Amount := 100000 }
        : Inputs).totalCost ∧
      (0 : ℚ) ≤ ({ specInput with useSection179 := true, section179Amount := 100000 }
        : Inputs).section179Amount ∧
      ({ specInput with useSection179 := true, section179Amount := 100000 }
        : Inputs).useSection179 = true) ∧
    ((step179 { specInput with useSection179 := true, section179Amount := 100000 }).2
        .year5).section179 = 80000 ∧
    ((step179 { specInput with useSection179 := true, section179Amount := 100000 }).2
        .year7).section179 = 20000 ∧
    ((step179 { specInput with useSection179 := true, section179Amount := 100000 }).2
        .year15).section179 = 0 := by
  obtain ⟨d5, d7, d15, hd5, hd7, hd15, h5, h7, h15, -, -⟩ :=
    section179_fcfs { specInput with useSection179 := true, section179Amount := 100000 }
      (by norm_num [specInput]) (fun c => by cases c <;> norm_num [specInput])
      (by norm_num) rfl
  have v5 : d5 = 80000 := by
    rw [hd5]
    norm_num [initialBasis, specInput, min_def]
  have v7 : d7 = 20000 := by
    rw [hd7, v5]
    norm_num [initialBasis, specInput, min_def]
  have v15 : d15 = 0 := by
    rw [hd15, v5, v7]
    norm_num [initialBasis, specInput, min_def]
  exact ⟨⟨by norm_num [specInput], by norm_num, rfl⟩,
    by rw [h5, v5], by rw [h7, v7], by rw [h15, v15]⟩

/-- C3: for every category, the reported year-0 amount is the periodic
amount plus the recorded Section 179 and bonus amounts, and every later
year reports exactly the periodic amount — all immediate deductions land
in the first reporting year. -/
theorem first_year_special (I : Inputs) (cat : CatId) (i : ℕ) (hi : i < 40) :
    ((scheduleData I).1.getD i default).depreciation cat =
      periodicDep I (afterBonus I) cat i +
        (if i = 0 then
          ((afterBonus I) cat).section179 + ((afterBonus I) cat).bonusDepreciation
        else 0) := by
  rw [scheduleData_getD I i hi]
  show yearDepreciation I (afterBonus I) cat i = _
  cases cat
  case land =>
    have h := afterBonus_not_eligible I .land (by simp)
    simp [yearDepreciation, periodicDep, life, h, initSchedules]
  all_goals
    simp only [yearDepreciation, periodicDep]
    norm_num [life]

/-- Witness for C3 at the spec's worked scenario, year 0, 5-year
category. -/
theorem first_year_special_witness :
    (0 : ℕ) < 40 ∧
    ((scheduleData specInput).1.getD 0 default).depreciation .year5 =
      periodicDep specInput (afterBonus specInput) .year5 0 +
        (if (0 : ℕ) = 0 then
          ((afterBonus specInput) .year5).section179 +
            ((afterBonus specInput) .year5).bonusDepreciation
        else 0) :=
  ⟨by norm_num, first_year_special specInput .year5 0 (by norm_num)⟩

/-- C4: under the straight-line method, a category of life `L > 0` with
post-179/post-bonus basis `B` reports exactly `B / L` for every year
index below `L` (plus the Section 179 and bonus amounts in year 0 only)
and `0` from index `L` on — including the non-integer life 27.5, with no
stub-year proration. -/
theorem straight_line_schedule (I : Inputs) (hm : I.depreciationMethod ≠ "macrs")
    (cat : CatId) (hl : 0 < life cat) (i : ℕ) (hi : i < 40) :
    ((i : ℚ) < life cat →
        ((scheduleData I).1.getD i default).depreciation cat =
          ((afterBonus I) cat).basis / life cat +
            (if i = 0 then
              ((afterBonus I) cat).section179 + ((afterBonus I) cat).bonusDepreciation
            else 0)) ∧
    (life cat ≤ (i : ℚ) →
        ((scheduleData I).1.getD i default).depreciation cat = 0) := by
  rw [scheduleData_getD I i hi]
  constructor
  · intro hlt
    show yearDepreciation I (afterBonus I) cat i = _
    simp only [yearDepreciation]
    rw [if_neg hl.ne', if_neg hm, if_pos hlt]
  · intro hge
    have hi0 : i ≠ 0 := by
      have hpos : (0 : ℚ) < (i : ℚ) := lt_of_lt_of_le hl hge
      exact (Nat.cast_pos.mp hpos).ne'
    show yearDepreciation I (afterBonus I) cat i = 0
    simp only [yearDepreciation]
    rw [if_neg hl.ne', if_neg hm, if_neg (not_lt.mpr hge), if_neg hi0]
    norm_num

/-- Witness for C4: straight-line over the worked scenario, commercial
category (life 39, basis 600,000), year 3 reports 600,000 / 39. -/
theorem straight_line_witness :
    ({ specInput with depreciationMethod := "straight" } : Inputs).depreciationMethod
        ≠ "macrs" ∧
    (0 : ℚ) < life .commercial ∧
    ((scheduleData
        { specInput with depreciationMethod := "straight" }).1.getD 3 default).depreciation
        .commercial = 200000 / 13 := by
  refine ⟨by decide, by norm_num [life], ?_⟩
  have h := (straight_line_schedule { specInput with depreciationMethod := "straight" }
      (by decide) .commercial (by norm_num [life]) 3 (by norm_num)).1
    (by norm_num [life])
  have hbasis : (afterBonus { specInput with depreciationMethod := "straight" }) .commercial
      = initSchedules { specInput with depreciationMethod := "straight" } .commercial :=
    afterBonus_not_eligible _ _ (by simp)
  rw [h, hbasis]
  norm_num [initSchedules, initialBasis, specInput, life]

/-- C6: the schedule always has exactly 40 rows over the 6 categories;
row `i` carries calendar year `purchaseYear + i`, and its total equals
the sum of its per-category amounts. -/
theorem schedule_shape (I : Inputs) :
    (scheduleData I).1.length = 40 ∧
    ASSET_CATEGORIES.length = 6 ∧
    ∀ i, i < 40 →
      ((scheduleData I).1.getD i default).year = I.purchaseYear + (i : ℤ) ∧
      ((scheduleData I).1.getD i default).totalDepreciation =
        (ASSET_CATEGORIES.map ((scheduleData I).1.getD i default).depreciation).sum := by
  refine ⟨by simp [scheduleData], by rfl, ?_⟩
  intro i hi
  rw [scheduleData_getD I i hi]
  refine ⟨rfl, ?_⟩
  have hland : yearDepreciation I (afterBonus I) .land i = 0 := by
    simp [yearDepreciation, life]
  simp only [yearRow, ASSET_CATEGORIES, List.foldl_cons, List.foldl_nil,
    List.map_cons, List.map_nil, List.sum_cons, List.sum_nil]
  norm_num [life, hland]
  ring

/-- Witness for C6 at the spec's worked scenario, row 0. -/
theorem schedule_shape_witness :
    (0 : ℕ) < 40 ∧
    ((scheduleData specInput).1.getD 0 default).year = specInput.purchaseYear + ((0 : ℕ) : ℤ) ∧
    ((scheduleData specInput).1.getD 0 default).totalDepreciation =
      (ASSET_CATEGORIES.map ((scheduleData specInput).1.getD 0 default).depreciation).sum :=
  ⟨by norm_num,
    ((schedule_shape specInput).2.2 0 (by norm_num)).1,
    ((schedule_shape specInput).2.2 0 (by norm_num)).2⟩

/-- C5 counterexample: a negative total cost (−100, commercial 60%)
flows through unchanged — the year-0 commercial depreciation is
−100 · 60% · 0.02461 = −1.4766 ≠ 0, so amounts are not all zero for a
negative cost. -/
theorem negative_cost_counterexample :
    negCost.totalCost ≤ 0 ∧
    ((scheduleData negCost).1.getD 0 default).depreciation .commercial ≠ 0 := by
  constructor
  · norm_num [negCost]
  · rw [scheduleData_getD negCost 0 (by norm_num)]
    have hcom : afterBonus negCost .commercial = initSchedules negCost .commercial :=
      afterBonus_not_eligible negCost .commercial (by simp)
    show yearDepreciation negCost (afterBonus negCost) .commercial 0 ≠ 0
    rw [yearDepreciation, hcom]
    norm_num [life, negCost, initSchedules, initialBasis, MACRS_RATES,
      List.getD_eq_getElem?_getD, List.getElem?_map, List.getElem?_range]

/-- C5 amended: for a *zero* total cost, every computed amount — every
basis, Section 179 amount, bonus amount, yearly depreciation, yearly
total and cumulative total — is zero (no error possible: the engine is a
total function). -/
theorem zero_cost_all_zero (I : Inputs) (h : I.totalCost = 0) :
    (∀ c, (scheduleData I).2 c = ({ basis := 0 } : CatSched)) ∧
    (∀ i, i < 40 →
      (∀ c, ((scheduleData I).1.getD i default).depreciation c = 0) ∧
      ((scheduleData I).1.getD i default).totalDepreciation = 0) ∧
    (∀ c, cumulative I c = 0) := by
  have hinit : ∀ c, initSchedules I c = ({ basis := 0 } : CatSched) := by
    intro c
    simp [initSchedules, initialBasis, h]
  have h179 : ∀ c, (step179 I).2 c = ({ basis := 0 } : CatSched) :=
    apply179_zero eligible179 _ (initSchedules I) hinit
  have hfin : ∀ c, (afterBonus I) c = ({ basis := 0 } : CatSched) := by
    intro c
    unfold afterBonus
    rw [applyBonus_spec]
    split
    · simp [h179]
    · exact h179 c
  have hdep : ∀ c y, yearDepreciation I (afterBonus I) c y = 0 := fun c y =>
    yearDepreciation_zero I (afterBonus I) c y (hfin c)
  refine ⟨hfin, ?_, ?_⟩
  · intro i hi
    rw [scheduleData_getD I i hi]
    refine ⟨fun c => hdep c i, ?_⟩
    simp [yearRow, ASSET_CATEGORIES, hdep]
  · intro c
    unfold cumulative
    rw [show yearDepreciation I (afterBonus I) c = fun _ => (0 : ℚ) from funext (hdep c)]
    simp

/-- Witness for the amended C5 at a concrete zero-cost input. -/
theorem zero_cost_all_zero_witness :
    ({ specInput with totalCost := 0 } : Inputs).totalCost = 0 ∧
    (scheduleData { specInput with totalCost := 0 }).2 .commercial
      = ({ basis := 0 } : CatSched) ∧
    cumulative { specInput with totalCost := 0 } .year5 = 0 :=
  ⟨rfl,
    (zero_cost_all_zero { specInput with totalCost := 0 } rfl).1 .commercial,
    (zero_cost_all_zero { specInput with totalCost := 0 } rfl).2.2 .year5⟩

/-- Used by C10: method values are only inspected through the
`depreciationMethod === 'macrs'` test, so the basis pipeline ignores
them entirely. -/
lemma afterBonus_method (I : Inputs) (m : String) :
    afterBonus { I with depreciationMethod := m } = afterBonus I := rfl

/-- C10: the engine branches only on `depreciationMethod == "macrs"`:
any two non-"macrs" method strings (e.g. the UI's "straight" and the
spec's "straight-line") produce identical results, and that result is
the straight-line schedule. -/
theorem nonmacrs_is_straight_line (I : Inputs) (m1 m2 : String)
    (h1 : m1 ≠ "macrs") (h2 : m2 ≠ "macrs") :
    scheduleData { I with depreciationMethod := m1 }
        = scheduleData { I with depreciationMethod := m2 } ∧
    ∀ cat : CatId, ∀ i : ℕ, i < 40 →
      ((scheduleData { I with depreciationMethod := m1 }).1.getD i default).depreciation cat
        = straightLineDep (afterBonus I) cat i := by
  constructor
  · have hdep : ∀ c y, yearDepreciation { I with depreciationMethod := m1 } (afterBonus I) c y
        = yearDepreciation { I with depreciationMethod := m2 } (afterBonus I) c y := by
      intro c y
      simp [yearDepreciation, h1, h2]
    have hrow : yearRow { I with depreciationMethod := m1 } (afterBonus I)
        = yearRow { I with depreciationMethod := m2 } (afterBonus I) := by
      funext y
      unfold yearRow
      congr 1
      · funext c
        exact hdep c y
      · have hfun : (fun (acc : ℚ) (c : CatId) => if life c = 0 then acc
            else acc + yearDepreciation { I with depreciationMethod := m1 } (afterBonus I) c y)
            = (fun (acc : ℚ) (c : CatId) => if life c = 0 then acc
            else acc + yearDepreciation { I with depreciationMethod := m2 } (afterBonus I) c y) := by
          funext acc c
          rw [hdep c y]
        rw [hfun]
    unfold scheduleData
    rw [afterBonus_method I m1, afterBonus_method I m2, hrow]
  · intro cat i hi
    rw [scheduleData_getD _ i hi, afterBonus_method I m1]
    show yearDepreciation { I with depreciationMethod := m1 } (afterBonus I) cat i = _
    by_cases hl : life cat = 0
    · simp [yearDepreciation, straightLineDep, hl]
    · simp [yearDepreciation, straightLineDep, hl, h1]

/-- Witness for C10: "straight" (the UI value) and "straight-line" (the
spec's name) produce identical schedules on the worked scenario. -/
theorem nonmacrs_witness :
    ("straight" ≠ "macrs") ∧ ("straight-line" ≠ "macrs") ∧
    scheduleData { specInput with depreciationMethod := "straight" }
      = scheduleData { specInput with depreciationMethod := "straight-line" } :=
  ⟨by decide, by decide,
    (nonmacrs_is_straight_line specInput "straight" "straight-line"
      (by decide) (by decide)).1⟩

end Depreciation
